import Mathlib

/-!
Verification of the Face-Swap submission pipeline (Node/Express application).

This file gives a shallow embedding of the repository's core functions:
the input sanitizer (`utils/sanitizer.js`), the validation middleware
(`middleware/validation.js`), the image-buffer checks and transformation
client (`utils/faceSwapAPI.js`), the submission store (`models/submission.js`),
and the submission controller (`controllers/submissionController.js`).
JavaScript strings are modelled as `List Char`, byte buffers as `List Nat`,
and fallible or stateful code as explicit state passing.  Theorems about the
embedded definitions settle the frozen claims about the repository.
-/

deriving instance DecidableEq for Except

namespace FaceSwap

/-- Character is an ASCII control character, the class `[\x00-\x1F\x7F]`
removed by the sanitizer. -/
def ctrlChar (c : Char) : Bool :=
  c.toNat ≤ 31 || c.toNat == 127

/-- JavaScript whitespace (the `\s` regex class and the set trimmed by
`String.prototype.trim`): tab, LF, VT, FF, CR, space, NBSP, line/paragraph
separator, BOM. -/
def isJsSpace (c : Char) : Bool :=
  c.toNat == 9 || c.toNat == 10 || c.toNat == 11 || c.toNat == 12 ||
  c.toNat == 13 || c.toNat == 32 || c.toNat == 160 || c.toNat == 0x2028 ||
  c.toNat == 0x2029 || c.toNat == 0xFEFF

/-- The regex word class `\w`, i.e. `[A-Za-z0-9_]`. -/
def isWordC (c : Char) : Bool :=
  (48 ≤ c.toNat && c.toNat ≤ 57) || (65 ≤ c.toNat && c.toNat ≤ 90) ||
  (97 ≤ c.toNat && c.toNat ≤ 122) || c.toNat == 95

/-- ASCII decimal digit, the regex class `\d`. -/
def isDigitC (c : Char) : Bool :=
  48 ≤ c.toNat && c.toNat ≤ 57

/-- ASCII letter, the regex class `[A-Za-z]`. -/
def isAlphaC (c : Char) : Bool :=
  (65 ≤ c.toNat && c.toNat ≤ 90) || (97 ≤ c.toNat && c.toNat ≤ 122)

/-- Hexadecimal digit, the regex class `[0-9a-fA-F]`. -/
def isHexC (c : Char) : Bool :=
  isDigitC c || (97 ≤ c.toNat && c.toNat ≤ 102) || (65 ≤ c.toNat && c.toNat ≤ 70)

/-- ASCII lower-casing of a single character, as performed by JavaScript
`toLowerCase` on the ASCII range (the only range the code relies on). -/
def lowerC (c : Char) : Char :=
  if 65 ≤ c.toNat ∧ c.toNat ≤ 90 then Char.ofNat (c.toNat + 32) else c

/-- JavaScript `String.prototype.toLowerCase` on an ASCII string. -/
def jsToLower (s : List Char) : List Char :=
  s.map lowerC

/-- JavaScript `String.prototype.trim`: drop leading and trailing whitespace. -/
def jsTrim (s : List Char) : List Char :=
  ((s.dropWhile isJsSpace).reverse.dropWhile isJsSpace).reverse

/-- Generic single left-to-right pass of a global regex replacement
(`String.replace` with the `g` flag): at each position, if the matcher fires
it returns the replacement text and the remainder after the match, and the
scan resumes after the match (the replacement text itself is never rescanned,
which is exactly the JavaScript semantics); otherwise the character is kept.
`fuel` bounds the number of steps; matchers always consume at least one
character, so `fuel = s.length` is exact. -/
def scan (m : List Char → Option (List Char × List Char)) :
    Nat → List Char → List Char
  | _, [] => []
  | 0, s => s
  | fuel + 1, c :: rest =>
    match m (c :: rest) with
    | some (out, rest2) => out ++ scan m fuel rest2
    | none => c :: scan m fuel rest

/-- Run a global replacement pass over the whole string. -/
def runScan (m : List Char → Option (List Char × List Char))
    (s : List Char) : List Char :=
  scan m s.length s

/-- Matcher for a fixed, case-sensitive pattern: used for the HTML-entity
decoding steps of the sanitizer (`/&lt;/g` and friends). -/
def mFixed (pat rep : List Char) (s : List Char) :
    Option (List Char × List Char) :=
  if s.take pat.length = pat then some (rep, s.drop pat.length) else none

/-- Matcher for a fixed, case-insensitive pattern (`/javascript:/gi`,
`/vbscript:/gi`); `pat` is given in lower case. -/
def mFixedCI (pat rep : List Char) (s : List Char) :
    Option (List Char × List Char) :=
  if (s.take pat.length).map lowerC = pat then some (rep, s.drop pat.length)
  else none

/-- Scan to just past the first `>` character, for the tag regex. -/
def findGt : List Char → Option (List Char)
  | [] => none
  | c :: r => if c.toNat == 62 then some r else findGt r

/-- Matcher for the tag regex `/<[^>]*>/g`: a `<`, any run of non-`>`
characters, then the first `>`.  If no closing `>` follows, the regex cannot
match at this position. -/
def mTag (s : List Char) : Option (List Char × List Char) :=
  match s with
  | c :: r => if c.toNat == 60 then (findGt r).map (fun r2 => ([], r2)) else none
  | [] => none

/-- Matcher for the inline-event-handler regex `/on\w+\s*=/gi`: `on`
(case-insensitive), at least one word character (maximal munch), optional
whitespace, then `=`.  Maximal munch is exact here because neither a word
character nor a whitespace character can be `=`. -/
def mOn (s : List Char) : Option (List Char × List Char) :=
  if (s.take 2).map lowerC = ("on").data then
    let r0 := s.drop 2
    if r0.takeWhile isWordC = [] then none
    else
      match (r0.dropWhile isWordC).dropWhile isJsSpace with
      | c :: r3 => if c.toNat == 61 then some ([], r3) else none
      | [] => none
  else none

/-- Matcher for the CSS-expression regex `/expression\s*\(/gi`. -/
def mExpr (s : List Char) : Option (List Char × List Char) :=
  if (s.take 10).map lowerC = ("expression").data then
    match (s.drop 10).dropWhile isJsSpace with
    | c :: r2 => if c.toNat == 40 then some ([], r2) else none
    | [] => none
  else none

/-- HTML serialization of text content: `&`, `<` and `>` become entities.
Used by the model of the DOMPurify step. -/
def htmlEncode : List Char → List Char
  | [] => []
  | c :: r =>
    (if c.toNat == 38 then ("&amp;").data
     else if c.toNat == 60 then ("&lt;").data
     else if c.toNat == 62 then ("&gt;").data
     else [c]) ++ htmlEncode r

/-- Modelled from the spec: the DOMPurify dependency (`purify.sanitize` with
`ALLOWED_TAGS: []`, `KEEP_CONTENT: true`) is a third-party library whose
source is not part of this repository.  Per spec §4.1 the step strips all
markup tags while keeping text content, and serialized text content has the
HTML special characters entity-encoded; it is modelled as dropping `<...>`
tag spans and entity-encoding the remaining `&`, `<`, `>`. -/
def domPurifyModel (s : List Char) : List Char :=
  htmlEncode (runScan mTag s)

/-- The `maxLength` step of the sanitizer:
`if (maxLength && sanitized.length > maxLength)` then
`sanitized.substring(0, maxLength)` — a null or zero (falsy) `maxLength`
skips truncation; `substring` clamps a negative bound to 0. -/
def jsTruncate (ml : Option Int) (s : List Char) : List Char :=
  match ml with
  | none => s
  | some n => if n ≠ 0 ∧ (s.length : Int) > n then s.take n.toNat else s

/-- A JavaScript value as far as the validation code inspects one: a string,
a boolean, a number, or `undefined`. -/
inductive JsVal where
  | str (s : List Char)
  | bool (b : Bool)
  | num (n : Int)
  | undef
deriving DecidableEq, Repr

/-- JavaScript truthiness of a `JsVal`. -/
def truthy : JsVal → Bool
  | .str s => !s.isEmpty
  | .bool b => b
  | .num n => n != 0
  | .undef => false

/-- The `x || ''` defaulting idiom applied to request fields. -/
def orEmpty (v : JsVal) : JsVal :=
  if truthy v then v else .str []

/-- Options of `sanitizeInput`, with the source's defaults
(`allowedTags` is folded into the purify function). -/
structure SanOpts where
  stripTags : Bool := true
  trim : Bool := true
  maxLength : Option Int := none
deriving DecidableEq, Repr

/-- Embedding of `sanitizeInput` (utils/sanitizer.js), parameterized by the
DOMPurify pass `purify`.  Mirrors the source stage by stage: non-string input
yields the empty string; trim; DOMPurify (when `stripTags`); decode the seven
HTML entities; strip `<[^>]*>` tags; remove `javascript:`, `vbscript:`,
inline `on...=` handlers and `expression(`; remove control characters;
truncate to `maxLength` when that option is truthy. -/
def sanitizeInputWith (purify : List Char → List Char) (input : JsVal)
    (opts : SanOpts) : List Char :=
  match input with
  | .str s0 =>
    let s1 := if opts.trim then jsTrim s0 else s0
    let s2 := if opts.stripTags then purify s1 else s1
    let s3 := runScan (mFixed (("&lt;").data) (("<").data)) s2
    let s4 := runScan (mFixed (("&gt;").data) ((">").data)) s3
    let s5 := runScan (mFixed (("&amp;").data) (("&").data)) s4
    let s6 := runScan (mFixed (("&quot;").data) [Char.ofNat 34]) s5
    let s7 := runScan (mFixed (("&#x27;").data) [Char.ofNat 39]) s6
    let s8 := runScan (mFixed (("&#x2F;").data) (("/").data)) s7
    let s9 := runScan (mFixed (("&#x60;").data) [Char.ofNat 96]) s8
    let sA := runScan mTag s9
    let sB := runScan (mFixedCI (("javascript:").data) []) sA
    let sC := runScan (mFixedCI (("vbscript:").data) []) sB
    let sD := runScan mOn sC
    let sE := runScan mExpr sD
    let sF := sE.filter (fun c => !ctrlChar c)
    jsTruncate opts.maxLength sF
  | _ => []

/-- The sanitizer as the rest of the code calls it: DOMPurify model, default
options unless overridden. -/
def sanitizeInput (input : JsVal) (opts : SanOpts := {}) : List Char :=
  sanitizeInputWith domPurifyModel input opts

/-- The name rule regex `^[A-Za-z\s]+$`. -/
def nameRegex (s : List Char) : Bool :=
  !s.isEmpty && s.all (fun c => isAlphaC c || isJsSpace c)

/-- The phone rule regex `^\d{10}$`: exactly ten digit characters. -/
def phoneRegex (s : List Char) : Bool :=
  s.length == 10 && s.all isDigitC

/-- The ObjectId format regex `^[0-9a-fA-F]{24}$`. -/
def hex24 (s : List Char) : Bool :=
  s.length == 24 && s.all isHexC

/-- Split a character list at every occurrence of a separator character. -/
def splitOnC (sep : Char) : List Char → List (List Char)
  | [] => [[]]
  | c :: r =>
    let rest := splitOnC sep r
    if c = sep then [] :: rest
    else
      match rest with
      | h :: t => (c :: h) :: t
      | [] => [[c]]

/-- Modelled from the spec: `validator.isEmail` is a third-party library
whose source is not part of this repository; per spec §4.2 it is an
"RFC-reasonable email-format check".  Modelled as: exactly one `@`; a
non-empty local part; a domain that contains a dot, has non-empty dot-parts,
and no whitespace anywhere. -/
def isEmailModel (e : List Char) : Bool :=
  match splitOnC (Char.ofNat 64) e with
  | [l, d] =>
    !l.isEmpty && !(l.any isJsSpace) && !(d.any isJsSpace) &&
    (splitOnC (Char.ofNat 46) d).length ≥ 2 &&
    (splitOnC (Char.ofNat 46) d).all (fun p => !p.isEmpty)
  | _ => false

/-- The raw submitted fields, as destructured from `req.body`. -/
structure Body where
  name : JsVal
  email : JsVal
  phone : JsVal
  terms : JsVal
deriving DecidableEq, Repr

/-- The uploaded file as multer attaches it to `req.file`; `bytes` is the
content written to disk (read back by `validateImage`). -/
structure UpFile where
  path : List Char
  filename : List Char
  mimetype : List Char
  size : Nat
  bytes : List Nat
deriving DecidableEq, Repr

/-- The 2 MB upload/validation limit, `2 * 1024 * 1024`. -/
def maxFileSize : Nat := 2097152

/-- The MIME allow-list of the validator. -/
def allowedMimes : List (List Char) :=
  [("image/jpeg").data, ("image/jpg").data, ("image/png").data]

/-- The sanitized field values echoed back to the form on failure. -/
structure FormData where
  name : List Char
  email : List Char
  phone : List Char
  terms : List Char
deriving DecidableEq, Repr

/-- The normalized field set attached as `req.validatedData` on success. -/
structure Validated where
  name : List Char
  email : List Char
  phone : List Char
  terms : Bool
deriving DecidableEq, Repr

def msgNameReq : List Char := ("Name is required").data
def msgNameLen : List Char := ("Name must be between 4 and 30 characters long").data
def msgNameAlpha : List Char :=
  ("Name must contain only alphabetic characters and spaces").data
def msgEmailReq : List Char := ("Email is required").data
def msgEmailBad : List Char := ("Please provide a valid email address").data
def msgPhoneReq : List Char := ("Phone number is required").data
def msgPhoneDigits : List Char := ("Phone number must be exactly 10 digits").data
def msgTerms : List Char := ("You must accept the Terms & Conditions").data
def msgImgReq : List Char := ("Image is required").data
def msgImgFmt : List Char := ("Image must be in JPG, JPEG, or PNG format").data
def msgImgSize : List Char := ("Image size must not exceed 2MB").data

/-- Name rule of `validateSubmission`: required, length in `[4,30]`,
alphabetic and spaces only — an `else if` chain, so at most one message. -/
def nameErrs (n : List Char) : List (List Char) :=
  if n = [] then [msgNameReq]
  else if n.length < 4 ∨ 30 < n.length then [msgNameLen]
  else if ¬nameRegex n then [msgNameAlpha] else []

/-- Email rule of `validateSubmission`: required, then `validator.isEmail`. -/
def emailErrs (isEmail : List Char → Bool) (e : List Char) : List (List Char) :=
  if e = [] then [msgEmailReq]
  else if ¬isEmail e then [msgEmailBad] else []

/-- Phone rule of `validateSubmission`: required, then `^\d{10}$`. -/
def phoneErrs (p : List Char) : List (List Char) :=
  if p = [] then [msgPhoneReq]
  else if ¬phoneRegex p then [msgPhoneDigits] else []

/-- Terms rule of `validateSubmission`, checked on the raw field. -/
def termsErrs (t : JsVal) : List (List Char) :=
  if truthy t then [] else [msgTerms]

/-- File rule of `validateSubmission`: required; MIME and size checks are
independent `if`s, so both messages can appear. -/
def fileErrs (f : Option UpFile) : List (List Char) :=
  match f with
  | none => [msgImgReq]
  | some f =>
    (if ¬(f.mimetype ∈ allowedMimes) then [msgImgFmt] else []) ++
    (if f.size > maxFileSize then [msgImgSize] else [])

/-- The `formData` record built by `validateSubmission` before checking:
each field sanitized (after the `|| ''` default), terms echoed as
`'on'`/empty. -/
def buildFormData (body : Body) : FormData :=
  { name := sanitizeInput (orEmpty body.name)
    email := sanitizeInput (orEmpty body.email)
    phone := sanitizeInput (orEmpty body.phone)
    terms := if truthy body.terms then ("on").data else [] }

/-- Embedding of `ValidationMiddleware.validateSubmission`, parameterized by
the email-format check.  Collects all field errors in source order; on any
error, responds 400 with the joined messages and the echoed form data
(`Except.error`); otherwise attaches the normalized field set with the email
lower-cased and terms coerced to `true` (`Except.ok`). -/
def validateSubmissionWith (isEmail : List Char → Bool) (body : Body)
    (file : Option UpFile) : Except (List (List Char) × FormData) Validated :=
  let fd := buildFormData body
  let errs := nameErrs fd.name ++ emailErrs isEmail fd.email ++
    phoneErrs fd.phone ++ termsErrs body.terms ++ fileErrs file
  if errs = [] then
    .ok { name := fd.name, email := jsToLower fd.email, phone := fd.phone,
          terms := true }
  else .error (errs, fd)

/-- `validateSubmission` with the modelled `validator.isEmail`. -/
def validateSubmission (body : Body) (file : Option UpFile) :
    Except (List (List Char) × FormData) Validated :=
  validateSubmissionWith isEmailModel body file

/-- Raw query parameters of the list route (`undefined` is `none`). -/
structure Query where
  page : Option (List Char)
  limit : Option (List Char)
  sort : Option (List Char)
deriving DecidableEq, Repr

/-- The `req.queryOptions` record produced by `validateSubmissionsQuery`. -/
structure QOpts where
  page : Int
  limit : Int
  skip : Int
  sortBy : List Char
  sortOrder : Int
deriving DecidableEq, Repr

/-- Value of a run of digits in a given base. -/
def digitsVal (base : Nat) (dv : Char → Nat) (ds : List Char) : Nat :=
  ds.foldl (fun acc c => acc * base + dv c) 0

/-- Decimal digit value. -/
def decDigit (c : Char) : Nat := c.toNat - 48

/-- Hexadecimal digit value. -/
def hexDigit (c : Char) : Nat :=
  if isDigitC c then c.toNat - 48
  else if 97 ≤ c.toNat ∧ c.toNat ≤ 102 then c.toNat - 87
  else c.toNat - 55

/-- JavaScript `parseInt(s)` with no radix argument: skip leading
whitespace, optional sign, `0x`/`0X` switches to hexadecimal, parse the
maximal digit prefix; `none` is `NaN`. -/
def parseIntJS (s : List Char) : Option Int :=
  let t := s.dropWhile isJsSpace
  let signParsed : Int × List Char :=
    match t with
    | c :: r =>
      if c = Char.ofNat 45 then (-1, r)
      else if c = Char.ofNat 43 then (1, r) else (1, t)
    | [] => (1, t)
  let sgn := signParsed.1
  let t2 := signParsed.2
  match t2 with
  | c0 :: c1 :: r =>
    if c0 = Char.ofNat 48 ∧ (c1 = Char.ofNat 120 ∨ c1 = Char.ofNat 88) then
      let hs := r.takeWhile isHexC
      if hs = [] then none else some (sgn * digitsVal 16 hexDigit hs)
    else
      let ds := t2.takeWhile isDigitC
      if ds = [] then none else some (sgn * digitsVal 10 decDigit ds)
  | _ =>
    let ds := t2.takeWhile isDigitC
    if ds = [] then none else some (sgn * digitsVal 10 decDigit ds)

/-- The sort-field allow-list of `validateSubmissionsQuery`. -/
def allowedSorts : List (List Char) :=
  [("name").data, ("email").data, ("createdAt").data, ("updatedAt").data]

/-- The page block of `validateSubmissionsQuery`: default 1; a present,
non-empty (truthy) value is sanitized and parsed, falling back to 1 when it
does not parse (`isNaN`) or is below 1. -/
def vsqPage (po : Option (List Char)) : Int :=
  match po with
  | none => 1
  | some s =>
    if s = [] then 1
    else
      match parseIntJS (sanitizeInput (.str s)) with
      | none => 1
      | some n => if n < 1 then 1 else n

/-- The limit block of `validateSubmissionsQuery`: default 10; fall back to
10 when the sanitized value does not parse or lies outside `[1,50]`. -/
def vsqLimit (lo : Option (List Char)) : Int :=
  match lo with
  | none => 10
  | some s =>
    if s = [] then 10
    else
      match parseIntJS (sanitizeInput (.str s)) with
      | none => 10
      | some n => if n < 1 ∨ 50 < n then 10 else n

/-- The sort block of `validateSubmissionsQuery`: default `createdAt`
descending; a leading `-` selects descending order; a field outside the
allow-list falls back to the default. -/
def vsqSort (so : Option (List Char)) : List Char × Int :=
  match so with
  | none => (("createdAt").data, -1)
  | some s =>
    if s = [] then (("createdAt").data, -1)
    else
      match sanitizeInput (.str s) with
      | c :: r =>
        if c = Char.ofNat 45 then
          if r ∈ allowedSorts then (r, -1) else (("createdAt").data, -1)
        else
          if (c :: r) ∈ allowedSorts then (c :: r, 1)
          else (("createdAt").data, -1)
      | [] => (("createdAt").data, -1)

/-- Embedding of `ValidationMiddleware.validateSubmissionsQuery`, assembling
the three blocks and the `skip = (page-1)*limit` offset into
`req.queryOptions`. -/
def validateSubmissionsQuery (q : Query) : QOpts :=
  { page := vsqPage q.page, limit := vsqLimit q.limit,
    skip := (vsqPage q.page - 1) * vsqLimit q.limit,
    sortBy := (vsqSort q.sort).1, sortOrder := (vsqSort q.sort).2 }

/-- The page that `renderSubmissions` derives itself:
`parseInt(req.query.page) || 1` (`NaN` and `0` are falsy). -/
def renderPage (po : Option (List Char)) : Int :=
  match po with
  | none => 1
  | some s => match parseIntJS s with
    | none => 1
    | some n => if n = 0 then 1 else n

/-- The limit that `renderSubmissions` derives itself:
`Math.min(parseInt(req.query.limit) || 10, 50)`. -/
def renderLimit (lo : Option (List Char)) : Int :=
  min (match lo with
    | none => (10 : Int)
    | some s => match parseIntJS s with
      | none => 10
      | some n => if n = 0 then 10 else n) 50

/-- The page and limit that `renderSubmissions` derives from the raw query,
independently of `req.queryOptions`. -/
def renderPageLimit (q : Query) : Int × Int :=
  (renderPage q.page, renderLimit q.limit)

/-- JavaScript `Array.prototype.slice(a, b)`: negative indices count from
the end, indices are clamped to `[0, length]`. -/
def jsSlice (l : List α) (a b : Int) : List α :=
  let n : Int := l.length
  let s := (if a < 0 then max (n + a) 0 else min a n).toNat
  let e := (if b < 0 then max (n + b) 0 else min b n).toNat
  (l.drop s).take (e - s)

/-- The pagination step of `renderSubmissions` (lines 113-115): slice the
sorted records from `(page-1)*limit` to `(page-1)*limit + limit` using the
handler's own page/limit derivation.  The preceding sort step (an
engine-defined `Array.sort`) is abstracted as the input list, which the
claims do not inspect. -/
def renderSlice (sorted : List α) (q : Query) : List α :=
  let pl := renderPageLimit q
  jsSlice sorted ((pl.1 - 1) * pl.2) ((pl.1 - 1) * pl.2 + pl.2)

/-- Per-client record of the fixed-window rate limiter. -/
structure RLEntry where
  count : Nat
  resetTime : Nat
deriving DecidableEq, Repr

/-- The 15-minute window, in milliseconds. -/
def rlWindow : Nat := 900000

/-- The request ceiling per window. -/
def rlMax : Nat := 10

/-- Embedding of one pass through `ValidationMiddleware.rateLimit` for a
single client: a missing entry starts at count 0 with a fresh reset time;
past the reset time the window restarts at count 1; otherwise the count is
incremented; the request is admitted when the updated count does not exceed
the ceiling (`count > maxRequests` is rejected with 429). -/
def rateLimitStep (now : Nat) (e : Option RLEntry) : RLEntry × Bool :=
  let c : RLEntry := match e with
    | none => { count := 0, resetTime := now + rlWindow }
    | some c => c
  let c2 := if c.resetTime < now then
      ({ count := 1, resetTime := now + rlWindow } : RLEntry)
    else { count := c.count + 1, resetTime := c.resetTime }
  (c2, decide (c2.count ≤ rlMax))

/-- Process a sequence of request timestamps from one client, returning the
final stored entry and the admission flag of each request. -/
def runRL : Option RLEntry → List Nat → Option RLEntry × List Bool
  | e, [] => (e, [])
  | e, t :: ts =>
    let st := rateLimitStep t e
    let r := runRL (some st.1) ts
    (r.1, st.2 :: r.2)

/-- A stored document: an association list of field names to values, as a
model of a MongoDB document (keys unique, first binding wins). -/
abbrev Doc (α : Type) := List (List Char × α)

/-- Read a field of a document. -/
def getKey (k : List Char) : Doc α → Option α
  | [] => none
  | (k2, v) :: r => if k2 = k then some v else getKey k r

/-- Set one field of a document, replacing an existing binding. -/
def setKey (k : List Char) (v : α) : Doc α → Doc α
  | [] => [(k, v)]
  | (k2, v2) :: r => if k2 = k then (k, v) :: r else (k2, v2) :: setKey k v r

/-- MongoDB `$set`: apply each field of the update document in order. -/
def applySet (doc : Doc α) (upd : Doc α) : Doc α :=
  upd.foldl (fun d kv => setKey kv.1 kv.2 d) doc

def keyUpdatedAt : List Char := ("updatedAt").data
def keyCreatedAt : List Char := ("createdAt").data

/-- The update document built by `SubmissionModel.updateById`:
`{ ...updateData, updatedAt: new Date() }` — the spread places the fresh
`updatedAt` after (hence overriding) any caller-supplied one. -/
def mergeUpdate (doc : Doc α) (upd : Doc α) (now : α) : Doc α :=
  applySet doc (upd ++ [(keyUpdatedAt, now)])

/-- The submissions collection, keyed by ObjectId string. -/
abbrev Store (α : Type) := List (List Char × Doc α)

/-- Update the first document with the given id, returning the post-update
document (`returnDocument: 'after'`). -/
def storeUpdate (id : List Char) (upd : Doc α) (now : α) :
    Store α → Store α × Option (Doc α)
  | [] => ([], none)
  | (i, d) :: rest =>
    if i = id then ((i, mergeUpdate d upd now) :: rest, some (mergeUpdate d upd now))
    else
      let r := storeUpdate id upd now rest
      ((i, d) :: r.1, r.2)

/-- Find the first document with the given id. -/
def storeFind (id : List Char) : Store α → Option (Doc α)
  | [] => none
  | (i, d) :: rest => if i = id then some d else storeFind id rest

/-- Embedding of `SubmissionModel.updateById`: invalid ids short-circuit to
not-found without touching the store; otherwise `findOneAndUpdate` with
`$set` of the update data plus a refreshed `updatedAt`.  `ObjectId.isValid`
is modelled as the 24-hex-character format (spec §4.2). -/
def updateById (store : Store α) (id : List Char) (upd : Doc α) (now : α) :
    Store α × Option (Doc α) :=
  if hex24 id then storeUpdate id upd now store else (store, none)

/-- Embedding of `FaceSwapAPI.isValidImageBuffer`: buffers shorter than 4
bytes are invalid; otherwise the first bytes must match the JPEG
(`FF D8 FF`), PNG (`89 50 4E 47`), GIF (`47 49 46`) or WEBP RIFF
(`52 49 46 46`) signature. -/
def isValidImageBuffer (b : List Nat) : Bool :=
  match b with
  | b0 :: b1 :: b2 :: b3 :: _ =>
    (b0 == 0xFF && b1 == 0xD8 && b2 == 0xFF) ||
    (b0 == 0x89 && b1 == 0x50 && b2 == 0x4E && b3 == 0x47) ||
    (b0 == 0x47 && b1 == 0x49 && b2 == 0x46) ||
    (b0 == 0x52 && b1 == 0x49 && b2 == 0x46 && b3 == 0x46)
  | _ => false

/-- Embedding of `FaceSwapAPI.getImageFormat`: same signature tests in the
same order, reporting the format name or `unknown`. -/
def getImageFormat (b : List Nat) : List Char :=
  match b with
  | b0 :: b1 :: b2 :: b3 :: _ =>
    if b0 == 0xFF && b1 == 0xD8 && b2 == 0xFF then ("jpeg").data
    else if b0 == 0x89 && b1 == 0x50 && b2 == 0x4E && b3 == 0x47 then ("png").data
    else if b0 == 0x47 && b1 == 0x49 && b2 == 0x46 then ("gif").data
    else if b0 == 0x52 && b1 == 0x49 && b2 == 0x46 && b3 == 0x46 then
      ("webp").data
    else ("unknown").data
  | _ => ("unknown").data

/-- Result of `FaceSwapAPI.validateImage`. -/
inductive VRes where
  | valid (size : Nat) (format : List Char)
  | invalid (error : List Char)
deriving DecidableEq, Repr

/-- Embedding of `FaceSwapAPI.validateImage` on the stored bytes: reject
files over 2 MB, then reject buffers without a known image signature,
otherwise report size and detected format.  (Filesystem read errors, which
also yield `valid: false`, are outside the byte-level model.) -/
def validateImage (bytes : List Nat) : VRes :=
  if bytes.length > maxFileSize then
    .invalid (("Image file is too large (max 2MB allowed)").data)
  else if ¬isValidImageBuffer bytes then
    .invalid (("Invalid image format").data)
  else .valid bytes.length (getImageFormat bytes)

/-- The result object of `swapFace` / `simulateFaceSwap`. -/
structure SwapResult where
  success : Bool
  swappedImagePath : List Char
  swappedImageFilename : List Char
  processingTime : Nat
deriving DecidableEq, Repr

/-- Outcome of the transformation call: a result object, or a thrown error
(`Except.error`), which `handleSubmission` catches as a 500. -/
abbrev SwapOutcome := Except Unit SwapResult

/-- A persisted submission record, as built by `handleSubmission` from the
raw `req.body` fields (note: not from `req.validatedData`). -/
structure Sub where
  id : Nat
  name : JsVal
  email : JsVal
  phone : JsVal
  terms : Bool
  originalImagePath : List Char
  originalImageFilename : List Char
  swappedImagePath : List Char
  swappedImageFilename : List Char
  processingTime : Nat
  status : List Char
deriving DecidableEq, Repr

/-- The controller's mock store: the `submissions` array and the
`submissionId` counter. -/
structure PipeState where
  submissions : List Sub
  nextId : Nat
deriving DecidableEq, Repr

/-- Response body shapes the submit path can produce. -/
inductive RespBody where
  | jsonErr (error : List Char)
  | jsonOk (submissionId : Nat) (swappedImageUrl : List Char)
      (processingTime : Nat)
  | formErr (error : List Char) (formData : FormData)
deriving DecidableEq, Repr

/-- An HTTP response: status code plus body. -/
structure Resp where
  status : Nat
  body : RespBody
deriving DecidableEq, Repr

/-- JavaScript `terms === 'on' || terms === true`. -/
def termsCoerce (t : JsVal) : Bool :=
  t == .str (("on").data) || t == .bool true

/-- Embedding of `handleSubmission` (submissionController.js): reject with
400 when no file was uploaded or when `validateImage` reports the stored
image invalid; 500 when the face-swap call throws or reports failure; on
success, push a record built from the raw `req.body` fields (with terms
coerced to a boolean) and respond 200 with the new id, the swapped-image
URL and the processing time. -/
def handleSubmission (body : Body) (file : Option UpFile)
    (swap : SwapOutcome) (st : PipeState) : Resp × PipeState :=
  match file with
  | none => (⟨400, .jsonErr (("No image file uploaded").data)⟩, st)
  | some f =>
    match validateImage f.bytes with
    | .invalid e => (⟨400, .jsonErr e⟩, st)
    | .valid _ _ =>
      match swap with
      | .error _ =>
        (⟨500, .jsonErr (("Internal server error during processing").data)⟩, st)
      | .ok r =>
        if !r.success then
          (⟨500, .jsonErr (("Face swap processing failed").data)⟩, st)
        else
          let sub : Sub :=
            { id := st.nextId, name := body.name, email := body.email,
              phone := body.phone, terms := termsCoerce body.terms,
              originalImagePath := f.path, originalImageFilename := f.filename,
              swappedImagePath := r.swappedImagePath,
              swappedImageFilename := r.swappedImageFilename,
              processingTime := r.processingTime,
              status := ("completed").data }
          (⟨200, .jsonOk st.nextId
              ((("/uploads/swapped/").data) ++ r.swappedImageFilename)
              r.processingTime⟩,
           { submissions := st.submissions ++ [sub], nextId := st.nextId + 1 })

/-- Join error messages with `'. '` as the failure render does. -/
def joinDot (es : List (List Char)) : List Char :=
  (es.intersperse ((". ").data)).flatten

/-- The submit route chain as the spec's pipeline (§4.6) wires it (the
`routes/submissionRoutes.js` file is not part of the provided sources):
field validation, then the controller.  `handleSubmission` receives the
same raw body — the normalized `req.validatedData` is computed by the
middleware but never read by the controller. -/
def submitRoute (body : Body) (file : Option UpFile) (swap : SwapOutcome)
    (st : PipeState) : Resp × PipeState :=
  match validateSubmission body file with
  | .error (es, fd) => (⟨400, .formErr (joinDot es) fd⟩, st)
  | .ok _ => handleSubmission body file swap st

/-- The name rule, as a predicate on the raw body: the sanitized name is
non-empty, its length is in `[4,30]`, and it matches `^[A-Za-z\s]+$`. -/
def nameOkP (body : Body) : Prop :=
  (buildFormData body).name ≠ [] ∧ 4 ≤ (buildFormData body).name.length ∧
  (buildFormData body).name.length ≤ 30 ∧ nameRegex (buildFormData body).name = true

/-- The email rule: the sanitized email is non-empty and passes the
email-format check. -/
def emailOkP (isEmail : List Char → Bool) (body : Body) : Prop :=
  (buildFormData body).email ≠ [] ∧ isEmail (buildFormData body).email = true

/-- The phone rule: the sanitized phone is non-empty and matches
`^\d{10}$`. -/
def phoneOkP (body : Body) : Prop :=
  (buildFormData body).phone ≠ [] ∧ phoneRegex (buildFormData body).phone = true

/-- The terms rule: the raw terms field is truthy. -/
def termsOkP (body : Body) : Prop :=
  truthy body.terms = true

/-- The file rule: a file is attached, its MIME type is allowed, and its
size does not exceed 2 MB. -/
def fileOkP (file : Option UpFile) : Prop :=
  ∃ f, file = some f ∧ f.mimetype ∈ allowedMimes ∧ f.size ≤ maxFileSize

/-- The messages the name rule can emit. -/
def nameMsgs : List (List Char) := [msgNameReq, msgNameLen, msgNameAlpha]

/-- The messages the email rule can emit. -/
def emailMsgs : List (List Char) := [msgEmailReq, msgEmailBad]

/-- The messages the phone rule can emit. -/
def phoneMsgs : List (List Char) := [msgPhoneReq, msgPhoneDigits]

/-- The messages the file rule can emit. -/
def fileMsgs : List (List Char) := [msgImgReq, msgImgFmt, msgImgSize]

/-- A character on which every sanitizer stage is inert: its lower-casing is
none of the pattern-critical characters — `&` (38, entities), `<` (60) and
`>` (62, tags and encoding), `:` (58, the script-scheme patterns), `=` (61,
inline handlers), `(` (40, `expression(`) — and it is not a control
character. -/
def inactiveChar (c : Char) : Bool :=
  !((lowerC c).toNat == 38 || (lowerC c).toNat == 60 ||
    (lowerC c).toNat == 62 || (lowerC c).toNat == 58 ||
    (lowerC c).toNat == 61 || (lowerC c).toNat == 40) && !ctrlChar c

/-- A string every sanitizer stage fixes: trim-stable and made of inactive
characters only. -/
def goodOut (s : List Char) : Prop :=
  jsTrim s = s ∧ s.all inactiveChar = true

/-- Whether a `JsVal` is a string. -/
def isStringV : JsVal → Bool
  | .str _ => true
  | _ => false

/-- The C1 scenario body: `{name:"John Doe", email:"JOHN@EXAMPLE.COM",
phone:"1234567890", terms:"on"}`. -/
def exBody : Body :=
  { name := .str (("John Doe").data), email := .str (("JOHN@EXAMPLE.COM").data),
    phone := .str (("1234567890").data), terms := .str (("on").data) }

/-- A stored upload whose bytes carry a valid JPEG signature. -/
def exFile : UpFile :=
  { path := ("public/uploads/original/a.jpg").data,
    filename := ("a.jpg").data, mimetype := ("image/jpeg").data,
    size := 4, bytes := [0xFF, 0xD8, 0xFF, 0xE0] }

/-- A successful transformation result, as `simulateFaceSwap` produces. -/
def exSwap : SwapOutcome :=
  .ok { success := true, swappedImagePath := ("sp").data,
        swappedImageFilename := ("swapped1.jpg").data, processingTime := 2000 }

/-- A body violating the name, email, phone and terms rules at once. -/
def exBadBody : Body :=
  { name := .str (("Al").data), email := .undef,
    phone := .str (("12").data), terms := .undef }

/-!  Theorems.  -/

/-- The `|| ''` default is the identity on string-valued fields. -/
theorem orEmpty_str (s : List Char) : orEmpty (.str s) = .str s := by
  by_cases h : s = []
  · subst h; rfl
  · simp [orEmpty, truthy, h]

/-- A ten-digit phone value is in particular non-empty. -/
theorem phoneRegex_ne_nil (h : phoneRegex p = true) : p ≠ [] := by
  intro hp
  subst hp
  simp [phoneRegex] at h

/-- The name rule emits no message exactly when the name conditions hold. -/
theorem nameErrs_eq_nil_iff (n : List Char) :
    nameErrs n = [] ↔
      (n ≠ [] ∧ 4 ≤ n.length ∧ n.length ≤ 30 ∧ nameRegex n = true) := by
  unfold nameErrs
  split_ifs with h1 h2 h3
  all_goals simp_all
  all_goals omega

/-- The email rule emits no message exactly when the email conditions
hold. -/
theorem emailErrs_eq_nil_iff (isEmail : List Char → Bool) (e : List Char) :
    emailErrs isEmail e = [] ↔ (e ≠ [] ∧ isEmail e = true) := by
  unfold emailErrs
  split_ifs with h1 h2 <;> simp_all

/-- The phone rule emits no message exactly when the phone conditions
hold. -/
theorem phoneErrs_eq_nil_iff (p : List Char) :
    phoneErrs p = [] ↔ (p ≠ [] ∧ phoneRegex p = true) := by
  unfold phoneErrs
  split_ifs with h1 h2 <;> simp_all

/-- The terms rule emits no message exactly when the raw field is truthy. -/
theorem termsErrs_eq_nil_iff (t : JsVal) :
    termsErrs t = [] ↔ truthy t = true := by
  unfold termsErrs
  split_ifs with h1 <;> simp_all

/-- The file rule emits no message exactly when a file with allowed MIME
type and size is attached. -/
theorem fileErrs_eq_nil_iff (file : Option UpFile) :
    fileErrs file = [] ↔ fileOkP file := by
  cases file with
  | none => simp [fileErrs, fileOkP]
  | some f =>
    simp only [fileErrs, fileOkP, List.append_eq_nil]
    constructor
    · intro ⟨h1, h2⟩
      refine ⟨f, rfl, ?_, ?_⟩
      · by_contra hm
        simp [hm] at h1
      · by_contra hs
        simp [Nat.lt_of_not_le hs] at h2
    · rintro ⟨f2, hf2, hm, hs⟩
      cases hf2
      constructor
      · rw [if_neg]
        intro hmm
        exact hmm hm
      · rw [if_neg]
        omega

/-- Every message the name rule emits is a name message. -/
theorem nameErrs_subset (n : List Char) :
    ∀ m ∈ nameErrs n, m ∈ nameMsgs := by
  unfold nameErrs
  split_ifs <;> simp_all [nameMsgs]

/-- Every message the email rule emits is an email message. -/
theorem emailErrs_subset (isEmail : List Char → Bool) (e : List Char) :
    ∀ m ∈ emailErrs isEmail e, m ∈ emailMsgs := by
  unfold emailErrs
  split_ifs <;> simp_all [emailMsgs]

/-- Every message the phone rule emits is a phone message. -/
theorem phoneErrs_subset (p : List Char) :
    ∀ m ∈ phoneErrs p, m ∈ phoneMsgs := by
  unfold phoneErrs
  split_ifs <;> simp_all [phoneMsgs]

/-- Every message the file rule emits is a file message. -/
theorem fileErrs_subset (file : Option UpFile) :
    ∀ m ∈ fileErrs file, m ∈ fileMsgs := by
  cases file with
  | none => simp [fileErrs, fileMsgs]
  | some f =>
    simp only [fileErrs]
    intro m hm
    rcases List.mem_append.mp hm with h | h <;>
      [skip; skip] <;> first
    | (revert h; split_ifs <;> simp_all [fileMsgs])

/-- C4: `validateSubmission` produces exactly one of two outcomes — a
normalized field set when every rule passes, or an error response whose
non-empty message list contains a message from every violated rule (name,
email, phone, terms, file): violations are collected, not fail-fast. -/
theorem validate_collects_all_violations :
    ∀ (isEmail : List Char → Bool) (body : Body) (file : Option UpFile),
      ((∃ v, validateSubmissionWith isEmail body file = .ok v) ↔
        (nameOkP body ∧ emailOkP isEmail body ∧ phoneOkP body ∧
         termsOkP body ∧ fileOkP file)) ∧
      (∀ es fd, validateSubmissionWith isEmail body file = .error (es, fd) →
        es ≠ [] ∧
        (¬nameOkP body → ∃ m, m ∈ es ∧ m ∈ nameMsgs) ∧
        (¬emailOkP isEmail body → ∃ m, m ∈ es ∧ m ∈ emailMsgs) ∧
        (¬phoneOkP body → ∃ m, m ∈ es ∧ m ∈ phoneMsgs) ∧
        (¬termsOkP body → msgTerms ∈ es) ∧
        (¬fileOkP file → ∃ m, m ∈ es ∧ m ∈ fileMsgs)) := by
  intro isEmail body file
  have hE : validateSubmissionWith isEmail body file =
      (if (nameErrs (buildFormData body).name ++
          emailErrs isEmail (buildFormData body).email ++
          phoneErrs (buildFormData body).phone ++ termsErrs body.terms ++
          fileErrs file) = []
       then .ok { name := (buildFormData body).name,
                  email := jsToLower (buildFormData body).email,
                  phone := (buildFormData body).phone, terms := true }
       else .error (nameErrs (buildFormData body).name ++
          emailErrs isEmail (buildFormData body).email ++
          phoneErrs (buildFormData body).phone ++ termsErrs body.terms ++
          fileErrs file, buildFormData body)) := rfl
  have hsplit : (nameErrs (buildFormData body).name ++
      emailErrs isEmail (buildFormData body).email ++
      phoneErrs (buildFormData body).phone ++ termsErrs body.terms ++
      fileErrs file) = [] ↔
      (nameOkP body ∧ emailOkP isEmail body ∧ phoneOkP body ∧
       termsOkP body ∧ fileOkP file) := by
    simp only [List.append_eq_nil]
    rw [nameErrs_eq_nil_iff, emailErrs_eq_nil_iff, phoneErrs_eq_nil_iff,
      termsErrs_eq_nil_iff, fileErrs_eq_nil_iff]
    unfold nameOkP emailOkP phoneOkP termsOkP
    tauto
  constructor
  · constructor
    · rintro ⟨v, hv⟩
      rw [hE] at hv
      by_cases h0 : (nameErrs (buildFormData body).name ++
          emailErrs isEmail (buildFormData body).email ++
          phoneErrs (buildFormData body).phone ++ termsErrs body.terms ++
          fileErrs file) = []
      · exact hsplit.mp h0
      · rw [if_neg h0] at hv
        cases hv
    · intro hok
      rw [hE, if_pos (hsplit.mpr hok)]
      exact ⟨_, rfl⟩
  · intro es fd herr
    rw [hE] at herr
    by_cases h0 : (nameErrs (buildFormData body).name ++
        emailErrs isEmail (buildFormData body).email ++
        phoneErrs (buildFormData body).phone ++ termsErrs body.terms ++
        fileErrs file) = []
    · rw [if_pos h0] at herr
      cases herr
    · rw [if_neg h0] at herr
      have hes : es = nameErrs (buildFormData body).name ++
          emailErrs isEmail (buildFormData body).email ++
          phoneErrs (buildFormData body).phone ++ termsErrs body.terms ++
          fileErrs file := by
        cases herr
        rfl
      subst hes
      refine ⟨h0, ?_, ?_, ?_, ?_, ?_⟩
      · intro hbad
        have hne : nameErrs (buildFormData body).name ≠ [] := by
          rw [Ne, nameErrs_eq_nil_iff]
          unfold nameOkP at hbad
          tauto
        obtain ⟨m, hm⟩ := List.exists_mem_of_ne_nil _ hne
        exact ⟨m, by simp [hm], nameErrs_subset _ m hm⟩
      · intro hbad
        have hne : emailErrs isEmail (buildFormData body).email ≠ [] := by
          rw [Ne, emailErrs_eq_nil_iff]
          unfold emailOkP at hbad
          tauto
        obtain ⟨m, hm⟩ := List.exists_mem_of_ne_nil _ hne
        exact ⟨m, by simp [hm], emailErrs_subset _ _ m hm⟩
      · intro hbad
        have hne : phoneErrs (buildFormData body).phone ≠ [] := by
          rw [Ne, phoneErrs_eq_nil_iff]
          unfold phoneOkP at hbad
          tauto
        obtain ⟨m, hm⟩ := List.exists_mem_of_ne_nil _ hne
        exact ⟨m, by simp [hm], phoneErrs_subset _ m hm⟩
      · intro hbad
        have hne : termsErrs body.terms = [msgTerms] := by
          unfold termsOkP at hbad
          unfold termsErrs
          rw [if_neg (by simpa using hbad)]
        simp [hne]
      · intro hbad
        have hne : fileErrs file ≠ [] := by
          rw [Ne, fileErrs_eq_nil_iff]
          exact hbad
        obtain ⟨m, hm⟩ := List.exists_mem_of_ne_nil _ hne
        exact ⟨m, by simp [hm], fileErrs_subset _ m hm⟩

/-- Witness for C4: a body violating name, email, phone and terms with no
file gives a non-empty error list containing a message from every violated
rule. -/
theorem validate_collects_all_violations_witness :
    ([msgNameLen, msgEmailReq, msgPhoneDigits, msgTerms, msgImgReq] :
      List (List Char)) ≠ [] ∧
    (∃ m, m ∈ ([msgNameLen, msgEmailReq, msgPhoneDigits, msgTerms,
        msgImgReq] : List (List Char)) ∧ m ∈ nameMsgs) ∧
    (∃ m, m ∈ ([msgNameLen, msgEmailReq, msgPhoneDigits, msgTerms,
        msgImgReq] : List (List Char)) ∧ m ∈ emailMsgs) ∧
    (∃ m, m ∈ ([msgNameLen, msgEmailReq, msgPhoneDigits, msgTerms,
        msgImgReq] : List (List Char)) ∧ m ∈ phoneMsgs) ∧
    msgTerms ∈ ([msgNameLen, msgEmailReq, msgPhoneDigits, msgTerms,
        msgImgReq] : List (List Char)) ∧
    (∃ m, m ∈ ([msgNameLen, msgEmailReq, msgPhoneDigits, msgTerms,
        msgImgReq] : List (List Char)) ∧ m ∈ fileMsgs) := by
  obtain h := (validate_collects_all_violations isEmailModel exBadBody
    none).2 [msgNameLen, msgEmailReq, msgPhoneDigits, msgTerms, msgImgReq]
    (buildFormData exBadBody) (by decide)
  exact ⟨h.1, h.2.1 (by unfold nameOkP; decide),
    h.2.2.1 (by unfold emailOkP; decide),
    h.2.2.2.1 (by unfold phoneOkP; decide),
    h.2.2.2.2.1 (by unfold termsOkP; decide),
    h.2.2.2.2.2 (by rintro ⟨f, hf, -⟩; cases hf)⟩

/-- C7: with the other fields valid, the submission is accepted exactly when
the sanitized phone value matches `^\d{10}$`; the dashed input
`123-456-7890` is rejected with the exact-10-digits message (and echoed
back unstripped), not auto-stripped to its digits. -/
theorem phone_rule_strict :
    (∀ phone : List Char,
      (∃ v, validateSubmission
          { name := .str (("John Doe").data),
            email := .str (("john@example.com").data),
            phone := .str phone, terms := .str (("on").data) }
          (some exFile) = .ok v) ↔
        phoneRegex (sanitizeInput (.str phone)) = true) ∧
    validateSubmission
        { name := .str (("John Doe").data),
          email := .str (("john@example.com").data),
          phone := .str (("123-456-7890").data),
          terms := .str (("on").data) } (some exFile) =
      .error ([msgPhoneDigits],
        { name := ("John Doe").data, email := ("john@example.com").data,
          phone := ("123-456-7890").data, terms := ("on").data }) := by
  constructor
  · intro phone
    simp only [validateSubmission]
    rw [(validate_collects_all_violations isEmailModel _ _).1]
    have hfd : (buildFormData
        { name := .str (("John Doe").data),
          email := .str (("john@example.com").data),
          phone := .str phone, terms := .str (("on").data) }).phone =
        sanitizeInput (.str phone) := by
      simp only [buildFormData]
      rw [orEmpty_str]
    constructor
    · intro h
      obtain ⟨-, hreg⟩ := h.2.2.1
      rw [hfd] at hreg
      exact hreg
    · intro hreg
      refine ⟨?_, ?_, ?_, ?_, exFile, rfl, by decide, by decide⟩
      · unfold nameOkP
        dsimp only [buildFormData]
        decide
      · unfold emailOkP
        dsimp only [buildFormData]
        decide
      · unfold phoneOkP
        rw [hfd]
        exact ⟨phoneRegex_ne_nil hreg, hreg⟩
      · unfold termsOkP
        dsimp only
        decide
  · decide

/-- C9: a buffer is reported valid exactly when a format other than
`unknown` is detected, and buffers shorter than four bytes — even ones that
begin with the three-byte JPEG or GIF signature — are invalid and
`unknown`. -/
theorem valid_buffer_iff_format_known :
    (∀ b : List Nat, isValidImageBuffer b = true ↔
      getImageFormat b ≠ ("unknown").data) ∧
    isValidImageBuffer [0xFF, 0xD8, 0xFF] = false ∧
    getImageFormat [0xFF, 0xD8, 0xFF] = ("unknown").data ∧
    isValidImageBuffer [0x47, 0x49, 0x46] = false ∧
    getImageFormat [0x47, 0x49, 0x46] = ("unknown").data := by
  refine ⟨?_, by decide, by decide, by decide, by decide⟩
  intro b
  match b with
  | [] => simp [isValidImageBuffer, getImageFormat]
  | [_] => simp [isValidImageBuffer, getImageFormat]
  | [_, _] => simp [isValidImageBuffer, getImageFormat]
  | [_, _, _] => simp [isValidImageBuffer, getImageFormat]
  | b0 :: b1 :: b2 :: b3 :: rest =>
    simp only [isValidImageBuffer, getImageFormat]
    split_ifs with h1 h2 h3 h4
    all_goals simp_all

/-- C3: `handleSubmission` responds 400 and leaves the store untouched when
the stored image fails `validateImage`, and responds 500 leaving the store
untouched when the face-swap call throws or reports failure. -/
theorem submission_atomic_on_failure :
    ∀ (body : Body) (f : UpFile) (swap : SwapOutcome) (st : PipeState),
      (∀ e, validateImage f.bytes = .invalid e →
        handleSubmission body (some f) swap st = (⟨400, .jsonErr e⟩, st)) ∧
      (∀ n fmt, validateImage f.bytes = .valid n fmt → swap = .error () →
        handleSubmission body (some f) swap st =
          (⟨500, .jsonErr (("Internal server error during processing").data)⟩,
           st)) ∧
      (∀ n fmt r, validateImage f.bytes = .valid n fmt → swap = .ok r →
        r.success = false →
        handleSubmission body (some f) swap st =
          (⟨500, .jsonErr (("Face swap processing failed").data)⟩, st)) := by
  intro body f swap st
  refine ⟨?_, ?_, ?_⟩
  · intro e he
    simp [handleSubmission, he]
  · intro n fmt hv hs
    subst hs
    simp [handleSubmission, hv]
  · intro n fmt r hv hs hr
    subst hs
    simp [handleSubmission, hv, hr]

/-- Witness for C3: a garbage buffer gives 400 with the store unchanged; a
throwing swap and an unsuccessful swap result give 500 with the store
unchanged. -/
theorem submission_atomic_on_failure_witness :
    handleSubmission exBody (some { exFile with bytes := [0, 1, 2] }) exSwap
        ⟨[], 1⟩ =
      (⟨400, .jsonErr (("Invalid image format").data)⟩, ⟨[], 1⟩) ∧
    handleSubmission exBody (some exFile) (.error ()) ⟨[], 1⟩ =
      (⟨500, .jsonErr (("Internal server error during processing").data)⟩,
       ⟨[], 1⟩) ∧
    handleSubmission exBody (some exFile)
        (.ok { success := false, swappedImagePath := [],
               swappedImageFilename := [], processingTime := 0 }) ⟨[], 1⟩ =
      (⟨500, .jsonErr (("Face swap processing failed").data)⟩, ⟨[], 1⟩) :=
  ⟨(submission_atomic_on_failure _ _ _ _).1 _ (by decide),
   (submission_atomic_on_failure _ _ _ _).2.1 4 (("jpeg").data) (by decide) rfl,
   (submission_atomic_on_failure _ _ _ _).2.2 4 (("jpeg").data) _ (by decide)
     rfl rfl⟩

/-- C1: on the passing scenario request the pipeline responds 200 with the
new submission id and swapped-image URL, but the persisted record's email is
the raw `req.body` value `JOHN@EXAMPLE.COM`, not the validator's normalized
`john@example.com` — `req.validatedData` (which does carry the lower-cased
email) is computed and then ignored by the controller. -/
theorem submit_persists_raw_body_fields :
    (submitRoute exBody (some exFile) exSwap ⟨[], 1⟩).1 =
      ⟨200, .jsonOk 1 (("/uploads/swapped/swapped1.jpg").data) 2000⟩ ∧
    (submitRoute exBody (some exFile) exSwap ⟨[], 1⟩).2.submissions.map
        Sub.email = [.str (("JOHN@EXAMPLE.COM").data)] ∧
    validateSubmission exBody (some exFile) =
      .ok ⟨("John Doe").data, ("john@example.com").data,
           ("1234567890").data, true⟩ ∧
    (("JOHN@EXAMPLE.COM").data : List Char) ≠ ("john@example.com").data := by
  exact ⟨by decide, by decide, by decide, by decide⟩

/-- In-window requests from one client each increment the stored count
without moving the reset time, and the k-th such request is admitted exactly
when the updated count stays within the ceiling. -/
theorem runRL_in_window (t0 : Nat) :
    ∀ (rest : List Nat) (k : Nat), (∀ t ∈ rest, t ≤ t0 + rlWindow) →
      runRL (some ⟨k, t0 + rlWindow⟩) rest =
        (some ⟨k + rest.length, t0 + rlWindow⟩,
         (List.range rest.length).map (fun i => decide (k + i + 1 ≤ rlMax))) := by
  intro rest
  induction rest with
  | nil => intro k h; simp [runRL]
  | cons t ts ih =>
    intro k h
    have ht : t ≤ t0 + rlWindow := h t (by simp)
    have hstep : rateLimitStep t (some ⟨k, t0 + rlWindow⟩) =
        (⟨k + 1, t0 + rlWindow⟩, decide (k + 1 ≤ rlMax)) := by
      simp only [rateLimitStep]
      rw [if_neg (by omega)]
    have hts : ∀ u ∈ ts, u ≤ t0 + rlWindow := fun u hu => h u (by simp [hu])
    simp only [runRL, hstep, ih (k + 1) hts]
    rw [Prod.mk.injEq]
    simp only [List.length_cons]
    constructor
    · rw [Option.some.injEq, RLEntry.mk.injEq]
      exact ⟨by omega, rfl⟩
    · rw [List.range_succ_eq_map, List.map_cons, List.map_map,
        List.cons.injEq]
      constructor
      · rw [decide_eq_decide]
      · apply List.map_congr_left
        intro i _
        simp only [Function.comp_apply]
        rw [decide_eq_decide]
        omega

/-- C6: starting from no stored entry, a burst of requests inside one
15-minute window is admitted for exactly the first 10 requests and rejected
from the 11th on; and any request arriving strictly after the stored reset
time restarts the window at count 1 and is admitted. -/
theorem rate_limit_fixed_window :
    (∀ (t0 : Nat) (rest : List Nat), (∀ t ∈ rest, t ≤ t0 + rlWindow) →
      (runRL none (t0 :: rest)).2 =
        (List.range (rest.length + 1)).map (fun i => decide (i + 1 ≤ rlMax))) ∧
    (∀ (e : RLEntry) (t : Nat), e.resetTime < t →
      rateLimitStep t (some e) = (⟨1, t + rlWindow⟩, true)) := by
  constructor
  · intro t0 rest h
    have h0 : rateLimitStep t0 none = (⟨1, t0 + rlWindow⟩, true) := by
      simp only [rateLimitStep]
      rw [if_neg (by omega)]
      simp [rlMax]
    simp only [runRL, h0, runRL_in_window t0 rest 1 h]
    rw [List.range_succ_eq_map, List.map_cons, List.map_map,
      List.cons.injEq]
    constructor
    · decide
    · apply List.map_congr_left
      intro i _
      simp only [Function.comp_apply]
      rw [decide_eq_decide]
      omega
  · intro e t h
    simp only [rateLimitStep]
    rw [if_pos h]
    simp [rlMax]

/-- Witness for C6: twelve same-window requests give ten admissions then two
rejections, and a request one millisecond past the reset time is admitted. -/
theorem rate_limit_fixed_window_witness :
    (runRL none (0 :: List.replicate 11 5)).2 =
      (List.range ((List.replicate 11 (5 : Nat)).length + 1)).map
        (fun i => decide (i + 1 ≤ rlMax)) ∧
    rateLimitStep 900001 (some ⟨10, 900000⟩) = (⟨1, 900001 + rlWindow⟩, true) :=
  ⟨rate_limit_fixed_window.1 0 (List.replicate 11 5) (by decide),
   rate_limit_fixed_window.2 ⟨10, 900000⟩ 900001 (by decide)⟩

/-- Reading back the key just set. -/
theorem getKey_setKey_self (k : List Char) (v : α) (d : Doc α) :
    getKey k (setKey k v d) = some v := by
  induction d with
  | nil => simp [setKey, getKey]
  | cons kv r ih =>
    obtain ⟨a, b⟩ := kv
    by_cases h : a = k
    · simp [setKey, h, getKey]
    · simp [setKey, h, getKey, ih]

/-- Setting one key leaves reads of any other key unchanged. -/
theorem getKey_setKey_of_ne (h : k1 ≠ k2) (v : α) (d : Doc α) :
    getKey k1 (setKey k2 v d) = getKey k1 d := by
  have hne : ¬(k2 = k1) := fun hh => h hh.symm
  induction d with
  | nil => simp [setKey, getKey, hne]
  | cons kv r ih =>
    obtain ⟨a, b⟩ := kv
    by_cases h2 : a = k2
    · subst h2
      simp [setKey, getKey, hne]
    · simp [setKey, h2, getKey, ih]

/-- A `$set` of fields not naming `k` leaves reads of `k` unchanged. -/
theorem getKey_applySet_of_not_mem (k : List Char) :
    ∀ upd : Doc α, k ∉ upd.map Prod.fst →
      ∀ d : Doc α, getKey k (applySet d upd) = getKey k d := by
  intro upd
  induction upd with
  | nil => intro _ d; rfl
  | cons kv rest ih =>
    intro h d
    simp only [List.map_cons, List.mem_cons, not_or] at h
    have hne : k ≠ kv.1 := h.1
    have step : applySet d (kv :: rest) = applySet (setKey kv.1 kv.2 d) rest :=
      rfl
    rw [step, ih h.2, getKey_setKey_of_ne hne]

/-- The merged update always carries the fresh `updatedAt`. -/
theorem getKey_mergeUpdate_updatedAt (d upd : Doc α) (now : α) :
    getKey keyUpdatedAt (mergeUpdate d upd now) = some now := by
  simp only [mergeUpdate, applySet, List.foldl_append, List.foldl_cons,
    List.foldl_nil]
  exact getKey_setKey_self _ _ _

/-- Fields neither named in the update nor equal to `updatedAt` survive the
merge unchanged. -/
theorem getKey_mergeUpdate_frame (d upd : Doc α) (now : α) (k : List Char)
    (hk : k ∉ upd.map Prod.fst) (hua : k ≠ keyUpdatedAt) :
    getKey k (mergeUpdate d upd now) = getKey k d := by
  have : k ∉ (upd ++ [(keyUpdatedAt, now)]).map Prod.fst := by
    simp [hk, hua]
  exact getKey_applySet_of_not_mem k _ this d

/-- `findOneAndUpdate` returns the merged version of the matched record. -/
theorem storeUpdate_snd (id : List Char) (upd : Doc α) (now : α)
    (orig : Doc α) :
    ∀ store : Store α, storeFind id store = some orig →
      (storeUpdate id upd now store).2 = some (mergeUpdate orig upd now) := by
  intro store
  induction store with
  | nil => intro h; simp [storeFind] at h
  | cons e rest ih =>
    obtain ⟨i, d⟩ := e
    intro h
    by_cases he : i = id
    · simp only [storeFind, if_pos he, Option.some.injEq] at h
      simp [storeUpdate, he, h]
    · simp only [storeFind, if_neg he] at h
      simp [storeUpdate, he, ih h]

/-- C8 (amended): for a found record, `updateById` returns the `$set`-merged
document; `createdAt` is unchanged provided the payload does not name it
(a payload naming `createdAt` does overwrite it — see the counterexample);
`updatedAt` is refreshed to the mutation time; and every field neither named
in the payload nor equal to `updatedAt` is unchanged. -/
theorem updateById_frame :
    ∀ (store : Store α) (id : List Char) (upd : Doc α) (now : α)
      (orig : Doc α), storeFind id store = some orig → hex24 id = true →
      (updateById store id upd now).2 = some (mergeUpdate orig upd now) ∧
      (keyCreatedAt ∉ upd.map Prod.fst →
        getKey keyCreatedAt (mergeUpdate orig upd now) =
          getKey keyCreatedAt orig) ∧
      getKey keyUpdatedAt (mergeUpdate orig upd now) = some now ∧
      (∀ k, k ∉ upd.map Prod.fst → k ≠ keyUpdatedAt →
        getKey k (mergeUpdate orig upd now) = getKey k orig) := by
  intro store id upd now orig hfind hid
  refine ⟨?_, ?_, getKey_mergeUpdate_updatedAt _ _ _, ?_⟩
  · simp only [updateById, hid, if_pos]
    exact storeUpdate_snd id upd now orig store hfind
  · intro hca
    exact getKey_mergeUpdate_frame _ _ _ _ hca (by decide)
  · intro k hk hua
    exact getKey_mergeUpdate_frame _ _ _ _ hk hua

/-- Counterexample for C8 as stated: an update payload that names
`createdAt` overwrites it — the record's `createdAt` changes from 5 to 9. -/
theorem updateById_createdAt_overwritten :
    (updateById [((("0123456789abcdef01234567").data),
        [(keyCreatedAt, (5 : Int))])] (("0123456789abcdef01234567").data)
        [(keyCreatedAt, (9 : Int))] 7).2 =
      some [(keyCreatedAt, 9), (keyUpdatedAt, 7)] ∧
    getKey keyCreatedAt [(keyCreatedAt, (9 : Int)), (keyUpdatedAt, 7)] =
      some 9 ∧
    getKey keyCreatedAt [(keyCreatedAt, (5 : Int))] = some 5 ∧
    some (9 : Int) ≠ some 5 := by
  exact ⟨by decide, by decide, by decide, by decide⟩

/-- Witness for C8: updating an unrelated field keeps `createdAt`, refreshes
`updatedAt`, and the unrelated field frame holds. -/
theorem updateById_frame_witness :
    (updateById [((("0123456789abcdef01234567").data),
        [(keyCreatedAt, (5 : Int))])] (("0123456789abcdef01234567").data)
        [((("status").data), (1 : Int))] 7).2 =
      some (mergeUpdate [(keyCreatedAt, (5 : Int))]
        [((("status").data), (1 : Int))] 7) ∧
    getKey keyCreatedAt (mergeUpdate [(keyCreatedAt, (5 : Int))]
        [((("status").data), (1 : Int))] 7) =
      getKey keyCreatedAt [(keyCreatedAt, (5 : Int))] ∧
    getKey keyUpdatedAt (mergeUpdate [(keyCreatedAt, (5 : Int))]
        [((("status").data), (1 : Int))] 7) = some 7 :=
  ⟨(updateById_frame [((("0123456789abcdef01234567").data),
        [(keyCreatedAt, (5 : Int))])] (("0123456789abcdef01234567").data)
        [((("status").data), (1 : Int))] 7 [(keyCreatedAt, (5 : Int))]
        (by decide) (by decide)).1,
   (updateById_frame [((("0123456789abcdef01234567").data),
        [(keyCreatedAt, (5 : Int))])] (("0123456789abcdef01234567").data)
        [((("status").data), (1 : Int))] 7 [(keyCreatedAt, (5 : Int))]
        (by decide) (by decide)).2.1 (by decide),
   (updateById_frame [((("0123456789abcdef01234567").data),
        [(keyCreatedAt, (5 : Int))])] (("0123456789abcdef01234567").data)
        [((("status").data), (1 : Int))] 7 [(keyCreatedAt, (5 : Int))]
        (by decide) (by decide)).2.2.1⟩

/-- C10 (amended): for every purify pass, every option set and every input
value, the sanitizer's output contains no control character; when a positive
`maxLength` is supplied the output length is at most `maxLength` (a zero or
negative `maxLength` does not behave this way — zero is falsy and skips
truncation, see the counterexample); and non-string input yields the empty
string. -/
theorem jsTruncate_mem (ml : Option Int) (s : List Char) :
    ∀ c ∈ jsTruncate ml s, c ∈ s := by
  intro c hc
  cases ml with
  | none => exact hc
  | some n =>
    simp only [jsTruncate] at hc
    split_ifs at hc with h
    · exact List.mem_of_mem_take hc
    · exact hc

theorem jsTruncate_length (n : Int) (hn : 0 < n) (s : List Char) :
    ((jsTruncate (some n) s).length : Int) ≤ n := by
  simp only [jsTruncate]
  split_ifs with h
  · calc ((s.take n.toNat).length : Int)
        ≤ (n.toNat : Int) := by exact_mod_cast List.length_take_le _ _
      _ = n := by omega
  · rw [not_and_or] at h
    rcases h with h0 | hlen
    · push_neg at h0
      omega
    · push_neg at hlen
      omega

theorem sanitize_output_invariants :
    ∀ (purify : List Char → List Char) (input : JsVal) (opts : SanOpts),
      (∀ c ∈ sanitizeInputWith purify input opts, ctrlChar c = false) ∧
      (∀ n : Int, opts.maxLength = some n → 0 < n →
        ((sanitizeInputWith purify input opts).length : Int) ≤ n) ∧
      (isStringV input = false → sanitizeInputWith purify input opts = []) := by
  intro purify input opts
  match input with
  | .bool b =>
    refine ⟨?_, ?_, fun _ => rfl⟩
    · intro c hc
      simp [sanitizeInputWith] at hc
    · intro n hml hn
      simp only [sanitizeInputWith, List.length_nil]
      omega
  | .num m =>
    refine ⟨?_, ?_, fun _ => rfl⟩
    · intro c hc
      simp [sanitizeInputWith] at hc
    · intro n hml hn
      simp only [sanitizeInputWith, List.length_nil]
      omega
  | .undef =>
    refine ⟨?_, ?_, fun _ => rfl⟩
    · intro c hc
      simp [sanitizeInputWith] at hc
    · intro n hml hn
      simp only [sanitizeInputWith, List.length_nil]
      omega
  | .str s0 =>
    refine ⟨?_, ?_, by intro h; cases h⟩
    · intro c hc
      simp only [sanitizeInputWith] at hc
      have hmem := jsTruncate_mem _ _ c hc
      have := (List.mem_filter.mp hmem).2
      simpa using this
    · intro n hml hn
      simp only [sanitizeInputWith, hml]
      exact jsTruncate_length n hn _

/-- Counterexample for C10 as stated: with the supplied option
`maxLength = 0` (falsy in JavaScript) no truncation happens, and the output
is longer than the supplied bound. -/
theorem sanitize_maxLength_zero_not_enforced :
    ({ maxLength := some 0 } : SanOpts).maxLength = some 0 ∧
    sanitizeInput (.str (("ab").data)) { maxLength := some 0 } =
      ("ab").data ∧
    ¬ (((sanitizeInput (.str (("ab").data))
        { maxLength := some 0 }).length : Int) ≤ 0) := by
  exact ⟨by decide, by decide, by decide⟩

/-- Witness for C10: at a concrete input with `maxLength = 1` the output
length is bounded by 1, no control characters survive, and a boolean input
sanitizes to the empty string. -/
theorem sanitize_output_invariants_witness :
    ((sanitizeInputWith domPurifyModel (.str (("abc").data))
        { maxLength := some 1 }).length : Int) ≤ 1 ∧
    (∀ c ∈ sanitizeInputWith domPurifyModel (.str (("abc").data))
        { maxLength := some 1 }, ctrlChar c = false) ∧
    sanitizeInputWith domPurifyModel (.bool true) {} = [] :=
  ⟨(sanitize_output_invariants domPurifyModel (.str (("abc").data))
      { maxLength := some 1 }).2.1 1 rfl (by decide),
   (sanitize_output_invariants domPurifyModel (.str (("abc").data))
      { maxLength := some 1 }).1,
   (sanitize_output_invariants domPurifyModel (.bool true) {}).2.2 rfl⟩

/-- An inactive character's codes avoid every pattern-critical code point. -/
theorem inactive_codes (c : Char) (hc : inactiveChar c = true) :
    c.toNat ≠ 38 ∧ c.toNat ≠ 60 ∧ c.toNat ≠ 62 ∧ c.toNat ≠ 58 ∧
    c.toNat ≠ 61 ∧ c.toNat ≠ 40 ∧ (lowerC c).toNat ≠ 58 ∧
    ctrlChar c = false := by
  simp only [inactiveChar, Bool.and_eq_true, Bool.not_eq_true',
    Bool.or_eq_false_iff, beq_eq_false_iff_ne, ne_eq] at hc
  obtain ⟨⟨⟨⟨⟨⟨h38, h60⟩, h62⟩, h58⟩, h61⟩, h40⟩, hctl⟩ := hc
  have hlow : ∀ k : Nat, k < 65 → c.toNat = k → (lowerC c).toNat = k := by
    intro k hk hck
    rw [lowerC, if_neg (by omega)]
    exact hck
  exact ⟨fun h => h38 (hlow 38 (by omega) h),
    fun h => h60 (hlow 60 (by omega) h),
    fun h => h62 (hlow 62 (by omega) h),
    fun h => h58 (hlow 58 (by omega) h),
    fun h => h61 (hlow 61 (by omega) h),
    fun h => h40 (hlow 40 (by omega) h), h58, hctl⟩

/-- A scan pass whose matcher never fires on inactive text is the
identity. -/
theorem scan_id (m : List Char → Option (List Char × List Char))
    (h : ∀ t, (∀ c ∈ t, inactiveChar c = true) → m t = none) :
    ∀ (fuel : Nat) (s : List Char), (∀ c ∈ s, inactiveChar c = true) →
      scan m fuel s = s := by
  intro fuel
  induction fuel with
  | zero =>
    intro s hs
    cases s <;> rfl
  | succ f ih =>
    intro s hs
    cases s with
    | nil => rfl
    | cons c rest =>
      simp only [scan, h (c :: rest) hs]
      rw [ih rest (fun c2 hc2 => hs c2 (List.mem_cons_of_mem _ hc2))]

/-- `runScan` version of `scan_id`. -/
theorem runScan_id (m : List Char → Option (List Char × List Char))
    (h : ∀ t, (∀ c ∈ t, inactiveChar c = true) → m t = none)
    (s : List Char) (hs : ∀ c ∈ s, inactiveChar c = true) :
    runScan m s = s :=
  scan_id m h s.length s hs

/-- A fixed pattern starting with `&` cannot match inactive text. -/
theorem mFixed_none_amp (pat rep : List Char)
    (hp : pat.head?.map Char.toNat = some 38) :
    ∀ t, (∀ c ∈ t, inactiveChar c = true) → mFixed pat rep t = none := by
  intro t ht
  unfold mFixed
  rw [if_neg]
  intro heq
  match pat, hp with
  | a :: pr, hp =>
    have ha : a.toNat = 38 := by
      simpa using hp
    match t, heq, ht with
    | c :: r, heq, ht =>
      rw [List.length_cons, List.take_succ_cons] at heq
      have hca : c = a := (List.cons.injEq _ _ _ _ ▸ heq).1
      have := (inactive_codes c (ht c (List.mem_cons_self c r))).1
      exact this (hca ▸ ha)

/-- A case-insensitive pattern containing `:` cannot match inactive text. -/
theorem mFixedCI_none_colon (pat rep : List Char)
    (hp : Char.ofNat 58 ∈ pat) :
    ∀ t, (∀ c ∈ t, inactiveChar c = true) → mFixedCI pat rep t = none := by
  intro t ht
  unfold mFixedCI
  rw [if_neg]
  intro heq
  have hmem : Char.ofNat 58 ∈ (t.take pat.length).map lowerC := by
    rw [heq]
    exact hp
  obtain ⟨c, hct, hlc⟩ := List.mem_map.mp hmem
  have hc := ht c (List.mem_of_mem_take hct)
  have hne := (inactive_codes c hc).2.2.2.2.2.2.1
  rw [hlc] at hne
  exact hne (by decide)

/-- The tag matcher cannot fire on inactive text (no `<`). -/
theorem mTag_none :
    ∀ t, (∀ c ∈ t, inactiveChar c = true) → mTag t = none := by
  intro t ht
  cases t with
  | nil => rfl
  | cons c r =>
    have := (inactive_codes c (ht c (List.mem_cons_self c r))).2.1
    simp only [mTag]
    rw [if_neg (by simpa using this)]

/-- The inline-handler matcher cannot fire on inactive text (no `=`). -/
theorem mOn_none :
    ∀ t, (∀ c ∈ t, inactiveChar c = true) → mOn t = none := by
  intro t ht
  unfold mOn
  dsimp only
  split_ifs with h1 h2
  · rfl
  · rcases hsplit : ((t.drop 2).dropWhile isWordC).dropWhile isJsSpace
      with - | ⟨c, r3⟩
    · simp [hsplit]
    · have hcmem : c ∈ t := by
        have h3 : c ∈ ((t.drop 2).dropWhile isWordC).dropWhile isJsSpace := by
          rw [hsplit]
          exact List.mem_cons_self c r3
        have h4 := (List.dropWhile_sublist
          (l := (t.drop 2).dropWhile isWordC) (p := isJsSpace)).subset h3
        have h5 := (List.dropWhile_sublist
          (l := t.drop 2) (p := isWordC)).subset h4
        exact (List.drop_sublist 2 t).subset h5
      have := (inactive_codes c (ht c hcmem)).2.2.2.2.1
      simp only [hsplit]
      rw [if_neg (by simpa using this)]
  · rfl

/-- The `expression(` matcher cannot fire on inactive text (no `(`). -/
theorem mExpr_none :
    ∀ t, (∀ c ∈ t, inactiveChar c = true) → mExpr t = none := by
  intro t ht
  unfold mExpr
  split_ifs with h1
  · rcases hsplit : (t.drop 10).dropWhile isJsSpace with - | ⟨c, r2⟩
    · simp [hsplit]
    · have hcmem : c ∈ t := by
        have h3 : c ∈ (t.drop 10).dropWhile isJsSpace := by
          rw [hsplit]
          exact List.mem_cons_self c r2
        have h4 := (List.dropWhile_sublist
          (l := t.drop 10) (p := isJsSpace)).subset h3
        exact (List.drop_sublist 10 t).subset h4
      have := (inactive_codes c (ht c hcmem)).2.2.2.2.2.1
      simp only [hsplit]
      rw [if_neg (by simpa using this)]
  · rfl

/-- `htmlEncode` is the identity on inactive text (no `&`, `<`, `>`). -/
theorem htmlEncode_id :
    ∀ s, (∀ c ∈ s, inactiveChar c = true) → htmlEncode s = s := by
  intro s
  induction s with
  | nil => intro _; rfl
  | cons c r ih =>
    intro hs
    have hcodes := inactive_codes c (hs c (List.mem_cons_self c r))
    simp only [htmlEncode]
    rw [if_neg (by simpa using hcodes.1), if_neg (by simpa using hcodes.2.1),
      if_neg (by simpa using hcodes.2.2.1),
      ih (fun c2 hc2 => hs c2 (List.mem_cons_of_mem _ hc2))]
    rfl

/-- Every sanitizer stage fixes a trim-stable all-inactive string. -/
theorem sanitizeInput_fix (y : List Char) (hy : goodOut y) :
    sanitizeInput (.str y) = y := by
  obtain ⟨htrim, hall⟩ := hy
  have hin : ∀ c ∈ y, inactiveChar c = true := by
    simpa [List.all_eq_true] using hall
  have hpure : domPurifyModel y = y := by
    unfold domPurifyModel
    rw [runScan_id mTag mTag_none y hin, htmlEncode_id y hin]
  have hctl : List.filter (fun c => !ctrlChar c) y = y := by
    rw [List.filter_eq_self]
    intro c hc
    simpa using (inactive_codes c (hin c hc)).2.2.2.2.2.2.2
  have hdef : sanitizeInput (.str y) =
      jsTruncate none (List.filter (fun c => !ctrlChar c)
        (runScan mExpr (runScan mOn
          (runScan (mFixedCI (("vbscript:").data) [])
            (runScan (mFixedCI (("javascript:").data) [])
              (runScan mTag
                (runScan (mFixed (("&#x60;").data) [Char.ofNat 96])
                  (runScan (mFixed (("&#x2F;").data) (("/").data))
                    (runScan (mFixed (("&#x27;").data) [Char.ofNat 39])
                      (runScan (mFixed (("&quot;").data) [Char.ofNat 34])
                        (runScan (mFixed (("&amp;").data) (("&").data))
                          (runScan (mFixed (("&gt;").data) ((">").data))
                            (runScan (mFixed (("&lt;").data) (("<").data))
                              (domPurifyModel (jsTrim y)))))))))))))))
      := rfl
  rw [hdef, htrim, hpure,
    runScan_id _ (mFixed_none_amp (("&lt;").data) (("<").data)
      (by decide)) y hin,
    runScan_id _ (mFixed_none_amp (("&gt;").data) ((">").data)
      (by decide)) y hin,
    runScan_id _ (mFixed_none_amp (("&amp;").data) (("&").data)
      (by decide)) y hin,
    runScan_id _ (mFixed_none_amp (("&quot;").data) [Char.ofNat 34]
      (by decide)) y hin,
    runScan_id _ (mFixed_none_amp (("&#x27;").data) [Char.ofNat 39]
      (by decide)) y hin,
    runScan_id _ (mFixed_none_amp (("&#x2F;").data) (("/").data)
      (by decide)) y hin,
    runScan_id _ (mFixed_none_amp (("&#x60;").data) [Char.ofNat 96]
      (by decide)) y hin,
    runScan_id mTag mTag_none y hin,
    runScan_id _ (mFixedCI_none_colon (("javascript:").data) []
      (by decide)) y hin,
    runScan_id _ (mFixedCI_none_colon (("vbscript:").data) []
      (by decide)) y hin,
    runScan_id mOn mOn_none y hin,
    runScan_id mExpr mExpr_none y hin,
    hctl]
  rfl

/-- C2 (amended): the sanitizer is not idempotent in general (see the
counterexample, where overlapping `javascript:` fragments reassemble); it is
idempotent on every input whose sanitized output is trim-stable and free of
the pattern-critical characters (`&`, `<`, `>`, `:`, `=`, `(`) and control
characters — in particular on ordinary alphanumeric text. -/
theorem sanitize_idempotent_on_good_outputs :
    ∀ x : List Char, goodOut (sanitizeInput (.str x)) →
      sanitizeInput (.str (sanitizeInput (.str x))) =
        sanitizeInput (.str x) := by
  intro x hx
  exact sanitizeInput_fix _ hx

/-- Counterexample for C2 as stated: sanitizing
`jajavascript:vascript:` once removes the embedded `javascript:` and the
surrounding fragments reassemble into `javascript:`; the second application
removes it, so sanitize∘sanitize differs from sanitize. -/
theorem sanitize_not_idempotent :
    sanitizeInput (.str (("jajavascript:vascript:").data)) =
      ("javascript:").data ∧
    sanitizeInput (.str (sanitizeInput
      (.str (("jajavascript:vascript:").data)))) = [] ∧
    sanitizeInput (.str (sanitizeInput
        (.str (("jajavascript:vascript:").data)))) ≠
      sanitizeInput (.str (("jajavascript:vascript:").data)) := by
  exact ⟨by decide, by decide, by decide⟩

/-- Witness for C2: the sanitized form of `<b>John Doe</b>` is the plain
text `John Doe`, which the sanitizer fixes, so a second pass changes
nothing. -/
theorem sanitize_idempotent_witness :
    goodOut (sanitizeInput (.str (("<b>John Doe</b>").data))) ∧
    sanitizeInput (.str (sanitizeInput
        (.str (("<b>John Doe</b>").data)))) =
      sanitizeInput (.str (("<b>John Doe</b>").data)) :=
  ⟨by constructor
      · decide
      · decide,
   sanitize_idempotent_on_good_outputs (("<b>John Doe</b>").data)
     (by constructor
         · decide
         · decide)⟩

/-- The validator's effective page is at least 1, defaulting to 1. -/
theorem vsqPage_bounds (po : Option (List Char)) :
    1 ≤ vsqPage po ∧ (po = none → vsqPage po = 1) := by
  rcases po with - | s
  · exact ⟨le_refl 1, fun _ => rfl⟩
  · refine ⟨?_, by intro h; cases h⟩
    unfold vsqPage
    dsimp only
    split_ifs with h0
    · omega
    · rcases parseIntJS (sanitizeInput (.str s)) with - | n
      · dsimp only
        omega
      · dsimp only
        split_ifs with h1 <;> omega

/-- The validator's effective limit lies in `[1,50]`, defaulting to 10. -/
theorem vsqLimit_bounds (lo : Option (List Char)) :
    1 ≤ vsqLimit lo ∧ vsqLimit lo ≤ 50 ∧ (lo = none → vsqLimit lo = 10) := by
  rcases lo with - | s
  · exact ⟨by decide, by decide, fun _ => rfl⟩
  · refine ⟨?_, ?_, by intro h; cases h⟩ <;>
    · unfold vsqLimit
      dsimp only
      split_ifs with h0
      · omega
      · rcases parseIntJS (sanitizeInput (.str s)) with - | n
        · dsimp only
          omega
        · dsimp only
          split_ifs with h1 <;> omega

/-- The validator's sort field stays in the allow-list, the order is ±1, and
an absent sort defaults to `createdAt` descending. -/
theorem vsqSort_allowed (so : Option (List Char)) :
    (vsqSort so).1 ∈ allowedSorts ∧
    ((vsqSort so).2 = 1 ∨ (vsqSort so).2 = -1) ∧
    (so = none → vsqSort so = ((("createdAt").data), -1)) := by
  rcases so with - | s
  · exact ⟨by decide, by decide, fun _ => rfl⟩
  · refine ⟨?_, ?_, by intro h; cases h⟩ <;>
    · unfold vsqSort
      dsimp only
      split_ifs with h0
      · decide
      · rcases sanitizeInput (.str s) with - | ⟨c, r⟩
        · decide
        · dsimp only
          split_ifs with h1 h2 h3
          all_goals (first | decide | simp_all)

/-- C5 (amended): the query validator clamps page to ≥ 1 (default 1), limit
to `[1,50]` (default 10), and sort to the allow-list (default `createdAt`
descending), with `skip = (page-1)*limit`; but the list handler derives its
own page and limit from the raw query (`parseInt(page) || 1`,
`min(parseInt(limit) || 10, 50)`) and slices with those: they coincide with
the validator's whenever the handler's values are in range and at most 50,
while a limit above 50 is cut to 50 by the handler yet falls back to 10 in
the validator (see the counterexample). -/
theorem query_validator_clamps :
    ∀ q : Query,
      (1 ≤ (validateSubmissionsQuery q).page ∧
       1 ≤ (validateSubmissionsQuery q).limit ∧
       (validateSubmissionsQuery q).limit ≤ 50 ∧
       (validateSubmissionsQuery q).sortBy ∈ allowedSorts ∧
       ((validateSubmissionsQuery q).sortOrder = 1 ∨
        (validateSubmissionsQuery q).sortOrder = -1) ∧
       (q.page = none → (validateSubmissionsQuery q).page = 1) ∧
       (q.limit = none → (validateSubmissionsQuery q).limit = 10) ∧
       (q.sort = none →
         (validateSubmissionsQuery q).sortBy = ("createdAt").data ∧
         (validateSubmissionsQuery q).sortOrder = -1) ∧
       (validateSubmissionsQuery q).skip =
         ((validateSubmissionsQuery q).page - 1) *
           (validateSubmissionsQuery q).limit) ∧
      ((q.page.map (fun s => sanitizeInput (.str s)) = q.page) →
       (q.limit.map (fun s => sanitizeInput (.str s)) = q.limit) →
       ((1 ≤ (renderPageLimit q).1 →
          (renderPageLimit q).1 = (validateSubmissionsQuery q).page) ∧
        ((renderPageLimit q).2 = (validateSubmissionsQuery q).limit ∨
         (renderPageLimit q).2 < 1 ∨
         ((renderPageLimit q).2 = 50 ∧
          (validateSubmissionsQuery q).limit = 10)))) ∧
      (∀ sorted : List Nat, renderSlice sorted q =
        jsSlice sorted
          (((renderPageLimit q).1 - 1) * (renderPageLimit q).2)
          (((renderPageLimit q).1 - 1) * (renderPageLimit q).2 +
           (renderPageLimit q).2)) := by
  intro q
  refine ⟨⟨(vsqPage_bounds q.page).1, (vsqLimit_bounds q.limit).1,
    (vsqLimit_bounds q.limit).2.1, (vsqSort_allowed q.sort).1,
    (vsqSort_allowed q.sort).2.1,
    fun h => (vsqPage_bounds q.page).2 h,
    fun h => (vsqLimit_bounds q.limit).2.2 h,
    fun h => by
      have := (vsqSort_allowed q.sort).2.2 h
      constructor
      · show (vsqSort q.sort).1 = ("createdAt").data
        rw [this]
      · show (vsqSort q.sort).2 = -1
        rw [this],
    rfl⟩, ?_, fun sorted => rfl⟩
  intro hps hls
  constructor
  · intro hrp
    show renderPage q.page = vsqPage q.page
    rcases hq : q.page with - | s
    · rfl
    · have hsan : sanitizeInput (.str s) = s := by
        rw [hq] at hps
        simpa using hps
      have hrp2 : 1 ≤ renderPage (some s) := by
        have heq : (renderPageLimit q).1 = renderPage q.page := rfl
        rw [heq, hq] at hrp
        exact hrp
      unfold renderPage vsqPage
      dsimp only
      rw [hsan]
      by_cases h0 : s = []
      · subst h0
        rfl
      · rw [if_neg h0]
        rcases hp : parseIntJS s with - | n
        · rfl
        · dsimp only
          unfold renderPage at hrp2
          dsimp only at hrp2
          rw [hp] at hrp2
          dsimp only at hrp2
          split_ifs at hrp2 with hz
          · rw [if_pos hz, if_pos (by omega)]
          · rw [if_neg hz, if_neg (by omega)]
  · show renderLimit q.limit = vsqLimit q.limit ∨ renderLimit q.limit < 1 ∨
      (renderLimit q.limit = 50 ∧ vsqLimit q.limit = 10)
    rcases hq : q.limit with - | s
    · left
      rfl
    · have hsan : sanitizeInput (.str s) = s := by
        rw [hq] at hls
        simpa using hls
      unfold renderLimit vsqLimit
      dsimp only
      rw [hsan]
      by_cases h0 : s = []
      · subst h0
        left
        rfl
      · rw [if_neg h0]
        rcases hp : parseIntJS s with - | n
        · left
          rfl
        · dsimp only
          by_cases hz : n = 0
          · rw [if_pos hz, if_pos (by omega)]
            left
            rfl
          · rw [if_neg hz]
            by_cases hlow : n < 1
            · right
              left
              omega
            · by_cases hhigh : 50 < n
              · right
                right
                rw [if_pos (by omega)]
                omega
              · left
                rw [if_neg (by omega)]
                omega

/-- Counterexample for C5 as stated: for `limit=100` the validator falls
back to 10, but the handler slices with `min(100, 50) = 50` — on 60 records
the page actually served has 50 entries, not 10. -/
theorem render_ignores_query_validator :
    (validateSubmissionsQuery ⟨none, some (("100").data), none⟩).limit =
      10 ∧
    (renderPageLimit ⟨none, some (("100").data), none⟩).2 = 50 ∧
    (renderSlice (List.range 60)
      ⟨none, some (("100").data), none⟩).length = 50 ∧
    ((50 : Int) ≠ 10) := by
  exact ⟨by decide, by decide, by decide, by decide⟩

/-- Witness for C5: on the query `page=2&limit=5&sort=-name` the validator
yields page at least 1, and the handler's own page/limit agree with the
validator's values. -/
theorem query_validator_clamps_witness :
    1 ≤ (validateSubmissionsQuery ⟨some (("2").data), some (("5").data),
      some (("-name").data)⟩).page ∧
    (renderPageLimit ⟨some (("2").data), some (("5").data),
        some (("-name").data)⟩).1 =
      (validateSubmissionsQuery ⟨some (("2").data), some (("5").data),
        some (("-name").data)⟩).page ∧
    ((renderPageLimit ⟨some (("2").data), some (("5").data),
        some (("-name").data)⟩).2 =
      (validateSubmissionsQuery ⟨some (("2").data), some (("5").data),
        some (("-name").data)⟩).limit ∨
     (renderPageLimit ⟨some (("2").data), some (("5").data),
        some (("-name").data)⟩).2 < 1 ∨
     ((renderPageLimit ⟨some (("2").data), some (("5").data),
        some (("-name").data)⟩).2 = 50 ∧
      (validateSubmissionsQuery ⟨some (("2").data), some (("5").data),
        some (("-name").data)⟩).limit = 10)) :=
  ⟨(query_validator_clamps ⟨some (("2").data), some (("5").data),
      some (("-name").data)⟩).1.1,
   ((query_validator_clamps ⟨some (("2").data), some (("5").data),
      some (("-name").data)⟩).2.1 (by decide) (by decide)).1 (by decide),
   ((query_validator_clamps ⟨some (("2").data), some (("5").data),
      some (("-name").data)⟩).2.1 (by decide) (by decide)).2⟩

end FaceSwap
